import Mathlib

/-!
Verification of the KMZ-route aggregation pipeline (`my_uploader.py`).

The development shallowly embeds the pipeline:
* numeric coordinate values are modelled exactly as rationals (`ℚ`);
* a KML document that survived XML parsing is modelled as the tree of
  elements the parser actually visits (placemarks, nested line strings,
  their coordinate text, and the temporal elements);
* fallible stages return `Option`;
* the in-place list mutation performed by `close_route_if_needed`
  (Python's `list.append` on an aliased list) is made explicit by a
  separate definition describing the state of the caller's lists after
  the call.

Definitions are translated from the source; definitions whose doc
comment starts with "Modelled from the spec:" embed the second,
more capable, pipeline version that the specification declares
canonical but whose source file is not part of `src/` (timestamp
extraction, natural-sort ordering, dated labels).
-/

section Embedding

/-- A coordinate: (longitude, latitude).  The source stores Python floats;
they are modelled exactly as rationals. -/
abbrev Coord : Type := ℚ × ℚ

/-- Decimal value of a run of digit characters (the characters are assumed
to be digits; each contributes `toNat - 48`). -/
def digitsToNat (ds : List Char) : ℕ :=
  ds.foldl (fun a c => a * 10 + (c.toNat - 48)) 0

/-- Leading sign of a numeric literal: returns (isNegative, rest). -/
def parseSign : List Char → Bool × List Char
  | '-' :: rest => (true, rest)
  | '+' :: rest => (false, rest)
  | cs => (false, cs)

/-- Model of Python's `float()` applied to a string, restricted to finite
decimal literals: optional sign, an integer part and/or a fractional part
(at least one digit between them), and an optional exponent.  The value is
represented exactly as a rational.  (The special spellings `inf`/`nan`,
embedded underscores and surrounding whitespace accepted by Python are not
modelled; no coordinate token in scope uses them.)  Returns `none` exactly
when the literal is rejected, which models `float()` raising `ValueError`. -/
def pyFloat? (s : String) : Option ℚ :=
  let (neg, cs) := parseSign s.toList
  let ip := cs.takeWhile Char.isDigit
  let cs := cs.dropWhile Char.isDigit
  let (fp, cs) :=
    match cs with
    | '.' :: rest => (rest.takeWhile Char.isDigit, rest.dropWhile Char.isDigit)
    | other => ([], other)
  if ip.isEmpty && fp.isEmpty then none
  else
    let mag : ℚ := (digitsToNat ip : ℚ) + (digitsToNat fp : ℚ) / ((10 : ℚ) ^ fp.length)
    let mantissa : ℚ := if neg then -mag else mag
    match cs with
    | [] => some mantissa
    | e :: rest =>
      if e == 'e' || e == 'E' then
        let (eneg, rest) := parseSign rest
        let ed := rest.takeWhile Char.isDigit
        let rest := rest.dropWhile Char.isDigit
        if ed.isEmpty || !rest.isEmpty then none
        else
          let ex : ℤ := if eneg then -(digitsToNat ed : ℤ) else (digitsToNat ed : ℤ)
          some (mantissa * (10 : ℚ) ^ ex)
      else none

/-- Python's `str.split(sep)` on a character list: cut at every separator
character, keeping empty fields (so the result always has one more field
than there are separators). -/
def splitCharsOn (p : Char → Bool) : List Char → List (List Char)
  | [] => [[]]
  | c :: rest =>
    if p c then [] :: splitCharsOn p rest
    else
      match splitCharsOn p rest with
      | [] => [[c]]
      | g :: gs => (c :: g) :: gs

/-- Python's `s.split(sep)` for a one-character separator class. -/
def pySplit (s : String) (p : Char → Bool) : List String :=
  (splitCharsOn p s.toList).map List.asString

/-- Model of `coord.split(',')`. -/
def commaFields (coord : String) : List String :=
  pySplit coord (fun c => c == ',')

/-- One coordinate token (`coord` in the source loop): split on commas;
if there are at least two components and the first two parse as floats,
yield `(lon, lat)`; otherwise the token is skipped (`continue`). -/
def parseCoordToken (coord : String) : Option Coord :=
  let parts := commaFields coord
  if 2 ≤ parts.length then
    match pyFloat? (parts.getD 0 ""), pyFloat? (parts.getD 1 "") with
    | some lon, some lat => some (lon, lat)
    | _, _ => none
  else none

/-- The whitespace characters recognised by Python's argumentless
`str.split()`. -/
def pyIsSpace (c : Char) : Bool :=
  c == ' ' || c == '\t' || c == '\n' || c == '\x0d' || c == '\x0b' || c == '\x0c'

/-- Python's `str.split()` with no argument: split on runs of whitespace,
dropping empty fields.  (The source applies `.strip()` first, which is
absorbed by dropping the empty boundary fields.) -/
def pySplitWs (s : String) : List String :=
  (pySplit s pyIsSpace).filter (fun t => t != "")

/-- A `<LineString>` element as seen by the parser: its
`<coordinates>` child's text, or `none` when the child is missing or
has no text. -/
structure LineStringElem where
  coordText : Option String
deriving DecidableEq

/-- A `<Placemark>` element: the `<LineString>` elements found beneath it,
in document order. -/
structure Placemark where
  linestrings : List LineStringElem
deriving DecidableEq

/-- A KML document that parsed as XML: the placemarks in document order,
plus the temporal elements used by the second pipeline version
(`whenText` models a `<TimeStamp><when>` value, `beginText` a
`<TimeSpan><begin>` value); the version under `src/` ignores the latter
two fields. -/
structure KmlDoc where
  placemarks : List Placemark
  whenText : Option String := none
  beginText : Option String := none
deriving DecidableEq

/-- Per-LineString body of the source loop: skip when the coordinates
element is missing or its text is falsy (empty); otherwise collect the
tokens' parsed coordinates and keep the geometry only if at least one
token parsed. -/
def parseLineString (coordText : Option String) : Option (List Coord) :=
  match coordText with
  | none => none
  | some text =>
    if text == "" then none
    else
      let coords := (pySplitWs text).filterMap parseCoordToken
      if coords.isEmpty then none else some coords

/-- Geometry extraction of `parse_kmz` after a successful
`ET.fromstring`: every placemark, every nested line string, keeping the
non-empty geometries. -/
def parse_kmz_doc (doc : KmlDoc) : List (List Coord) :=
  doc.placemarks.flatMap
    (fun pm => pm.linestrings.filterMap (fun ls => parseLineString ls.coordText))

/-- Function `parse_kmz` from the point where the raw KML bytes are in hand:
`none` models the `except` paths (unreadable archive, no KML entry, or
`ET.fromstring` raising), all of which print a message and return the
empty route list; `some doc` is a document that parsed as XML. -/
def parse_kmz (xml : Option KmlDoc) : List (List Coord) :=
  match xml with
  | none => []
  | some doc => parse_kmz_doc doc

/-- A route dict as built by `aggregate_routes_from_directory`:
`{'name': ..., 'coords': ...}`. -/
structure Route where
  name : String
  coords : List Coord
deriving DecidableEq

/-- One directory entry as the aggregator sees it: the filename from
`os.listdir`, and the result of reading+XML-parsing the archive at that
path (`none` for any of the non-fatal failure paths of `parse_kmz`). -/
structure DirEntry where
  filename : String
  doc : Option KmlDoc
deriving DecidableEq

/-- Lower-casing of a string, `str.lower()` (modelled per character). -/
def pyLower (s : String) : String :=
  (s.toList.map Char.toLower).asString

/-- Model of `filename.lower().endswith('.kmz')`. -/
def isKmzName (filename : String) : Bool :=
  ".kmz".toList.isSuffixOf (pyLower filename).toList

/-- Model of `os.path.splitext(filename)[0]`: the part before the last dot,
where the dots of an all-dots prefix never start an extension. -/
def splitextBase (s : String) : String :=
  let cs := s.toList
  let lead := (cs.takeWhile (fun c => c == '.')).length
  match ((List.range cs.length).filter
      (fun i => decide (lead ≤ i) && (cs.getD i ' ' == '.'))).getLast? with
  | some i => (cs.take i).asString
  | none => s

/-- Function `aggregate_routes_from_directory`: for every `.kmz` entry (case
insensitive), one route dict per geometry of `parse_kmz`, named after the
archive's base filename.  (The source's `if routes:` guard is redundant:
an empty geometry list contributes nothing either way.) -/
def aggregate_routes_from_directory (listing : List DirEntry) : List Route :=
  listing.flatMap (fun e =>
    if isKmzName e.filename then
      (parse_kmz e.doc).map (fun g => Route.mk (splitextBase e.filename) g)
    else [])

/-- The closing tolerance `1e-6` of `close_route_if_needed`. -/
def tol : ℚ := 1 / 1000000

/-- Function `close_route_if_needed`: empty input is returned unchanged; otherwise,
if first and last coordinates differ by more than `tol` on either axis,
the first coordinate is appended, else the list is returned as is.
This is the value both of the returned list and (because the append is
in place on an aliased object) of the caller's list after the call. -/
def close_route_if_needed (coords : List Coord) : List Coord :=
  if h : coords = [] then coords
  else
    let first := coords.head h
    let last := coords.getLast h
    if tol < |first.1 - last.1| ∨ tol < |first.2 - last.2| then coords ++ [first]
    else coords

/-- State of the route dicts after `create_combined_kml` has processed
them: each `route['coords']` list has been mutated in place by
`close_route_if_needed` (its `coords.append(first)` acts on the very
list object the dict holds), so afterwards the stored geometry is the
value computed by `close_route_if_needed`. -/
def routesAfterWriter (routes : List Route) : List Route :=
  routes.map (fun r => Route.mk r.name (close_route_if_needed r.coords))

/-- Outcome of `main` after argument parsing: either the no-routes early
return (message "No routes found in the directory.", no writer call, no
output file), or the writer is invoked on the aggregated routes and
writes the output file. -/
inductive RunOutcome where
  | noRoutes
  | wrote (routes : List Route) (output : String)
deriving DecidableEq

/-- Control flow of `main` on the aggregation result: `if not routes:`
report and return, else call `create_combined_kml(routes, output)`. -/
def main_run (listing : List DirEntry) (output : String) : RunOutcome :=
  let routes := aggregate_routes_from_directory listing
  if routes.isEmpty then RunOutcome.noRoutes
  else RunOutcome.wrote routes output

/-- Modelled from the spec: a parsed ISO-8601 timestamp of the second
pipeline version (the canonical version's source file is not under
`src/`).  The offset, when present, is in minutes east of UTC. -/
structure DateTime where
  year : ℕ
  month : ℕ
  day : ℕ
  hour : ℕ
  minute : ℕ
  second : ℕ
  tzOffsetMinutes : Option ℤ
deriving DecidableEq

/-- Two decimal digits, returning the value and the rest. -/
def digit2? : List Char → Option (ℕ × List Char)
  | a :: b :: rest =>
    if a.isDigit && b.isDigit then some ((a.toNat - 48) * 10 + (b.toNat - 48), rest)
    else none
  | _ => none

/-- Four decimal digits, returning the value and the rest. -/
def digit4? (cs : List Char) : Option (ℕ × List Char) := do
  let (hi, cs) ← digit2? cs
  let (lo, cs) ← digit2? cs
  pure (hi * 100 + lo, cs)

/-- Expect one literal character. -/
def expectChar (c : Char) : List Char → Option (List Char)
  | d :: rest => if d == c then some rest else none
  | _ => none

/-- Field-range validation of a parsed timestamp (months 1-12, days 1-31,
hours to 23, minutes and seconds to 59), as `datetime.fromisoformat`
rejects out-of-range fields. -/
def validDateTime (dt : DateTime) : Bool :=
  decide (1 ≤ dt.month) && decide (dt.month ≤ 12) && decide (1 ≤ dt.day) &&
    decide (dt.day ≤ 31) && decide (dt.hour ≤ 23) && decide (dt.minute ≤ 59) &&
    decide (dt.second ≤ 59)

/-- Offset tail `±HH:MM` of an ISO-8601 timestamp. -/
def parseIsoOffset (cs : List Char) : Option ℤ := do
  let sign ← match cs with
    | '+' :: _ => some (1 : ℤ)
    | '-' :: _ => some (-1 : ℤ)
    | _ => none
  let (hh, cs) ← digit2? (cs.drop 1)
  let cs ← expectChar ':' cs
  let (mm, cs) ← digit2? cs
  if cs.isEmpty && hh ≤ 23 && mm ≤ 59 then pure (sign * (hh * 60 + mm)) else none

/-- Modelled from the spec: the ISO-8601 parse used by the second pipeline
version for temporal values, `YYYY-MM-DD` optionally followed by
`THH:MM:SS` and an offset `±HH:MM`; any other shape or an out-of-range
field yields `none` (the parse failure that is reported but does not
abort the run). -/
def parseIso (s : String) : Option DateTime := do
  let cs := s.toList
  let (y, cs) ← digit4? cs
  let cs ← expectChar '-' cs
  let (mo, cs) ← digit2? cs
  let cs ← expectChar '-' cs
  let (d, cs) ← digit2? cs
  match cs with
  | [] =>
    let dt := DateTime.mk y mo d 0 0 0 none
    if validDateTime dt then pure dt else none
  | 'T' :: cs => do
    let (h, cs) ← digit2? cs
    let cs ← expectChar ':' cs
    let (mi, cs) ← digit2? cs
    let cs ← expectChar ':' cs
    let (sec, cs) ← digit2? cs
    match cs with
    | [] =>
      let dt := DateTime.mk y mo d h mi sec none
      if validDateTime dt then pure dt else none
    | _ => do
      let off ← parseIsoOffset cs
      let dt := DateTime.mk y mo d h mi sec (some off)
      if validDateTime dt then pure dt else none
  | _ => none

/-- Modelled from the spec: the single normalization rule of the second
pipeline version — a literal trailing `Z` designator is rewritten to the
UTC offset `+00:00` before ISO-8601 parsing. -/
def normalizeZ (s : String) : String :=
  if s.toList.getLast? = some 'Z' then (s.toList.dropLast ++ "+00:00".toList).asString
  else s

/-- Temporal value parsing with the `Z` normalization applied. -/
def parseIsoZ (s : String) : Option DateTime :=
  parseIso (normalizeZ s)

/-- Modelled from the spec: timestamp extraction of the second pipeline
version.  Priority: the instantaneous-time element's value
(`<TimeStamp><when>`); if that element is absent, the time-interval's
begin value (`<TimeSpan><begin>`).  The chosen textual value is parsed
with `parseIsoZ`; a parse failure yields `none` (capture time absent). -/
def extract_capture_time (doc : KmlDoc) : Option DateTime :=
  match doc.whenText with
  | some w => parseIsoZ w
  | none =>
    match doc.beginText with
    | some b => parseIsoZ b
    | none => none

/-- Modelled from the spec: the second pipeline version's Markup Parser,
returning the optional capture timestamp alongside the geometries; a
failed XML parse contributes no geometries and no timestamp. -/
def parse_kmz_v2 (xml : Option KmlDoc) : Option DateTime × List (List Coord) :=
  match xml with
  | none => (none, [])
  | some doc => (extract_capture_time doc, parse_kmz_doc doc)

/-- Modelled from the spec: a Route of the second pipeline version —
name, optional capture time shared by all geometries of the archive, and
one geometry. -/
structure RouteV2 where
  name : String
  capture_time : Option DateTime
  coords : List Coord
deriving DecidableEq

/-- Natural-sort encoding of one name, modelled from the spec: the name
is cut into maximal runs of digits and maximal runs of non-digits,
alternating; the encoding interleaves (possibly empty) non-digit runs
with the digit runs, always starting with a non-digit run, so that
corresponding positions of two encodings always hold runs of the same
kind.  A digit run is encoded as `[0, value]` (runs compare as integers);
a non-digit run as `1` followed by the lower-cased character codes (runs
compare case-insensitively as text).  Encodings compare lexicographically
(so a strict prefix sorts first), using the lexicographic order on
`List (List ℕ)`.  `fuel` bounds the recursion by the length of the
remaining input and is always sufficient. -/
def natChunksAux : ℕ → List Char → List (List ℕ)
  | 0, _ => []
  | fuel + 1, cs =>
    let t := cs.takeWhile (fun c => !c.isDigit)
    let r := cs.dropWhile (fun c => !c.isDigit)
    let tEnc := 1 :: t.map (fun c => c.toLower.toNat)
    match r with
    | [] => [tEnc]
    | _ :: _ =>
      let d := r.takeWhile Char.isDigit
      let r2 := r.dropWhile Char.isDigit
      tEnc :: [0, digitsToNat d] :: natChunksAux fuel r2

/-- Natural-sort key of a name. -/
def natKey (s : String) : List (List ℕ) :=
  natChunksAux (s.toList.length + 1) s.toList

/-- The natural-sort comparator on names: keys compared lexicographically. -/
def natLe (a b : String) : Prop :=
  natKey a ≤ natKey b

instance : DecidableRel natLe := fun a b =>
  inferInstanceAs (Decidable (natKey a ≤ natKey b))

/-- Route comparison by name under the natural-sort comparator. -/
def routeNatLe (a b : RouteV2) : Prop :=
  natLe a.name b.name

instance : DecidableRel routeNatLe := fun a b =>
  inferInstanceAs (Decidable (natLe a.name b.name))

/-- Strict natural-sort comparison on Routes: strictly smaller key. -/
def routeNatLt (a b : RouteV2) : Prop :=
  natKey a.name < natKey b.name

/-- Modelled from the spec: the second pipeline version's Route
Aggregator before ordering — one Route per geometry of each matching
archive, carrying the archive's base filename and parsed capture time. -/
def collect_routes_v2 (listing : List DirEntry) : List RouteV2 :=
  listing.flatMap (fun e =>
    if isKmzName e.filename then
      let parsed := parse_kmz_v2 e.doc
      parsed.2.map (fun g => RouteV2.mk (splitextBase e.filename) parsed.1 g)
    else [])

/-- Modelled from the spec: the second pipeline version's Route
Aggregator — the collected Routes sorted by name under the natural-sort
comparator. -/
def aggregate_routes_v2 (listing : List DirEntry) : List RouteV2 :=
  (collect_routes_v2 listing).insertionSort routeNatLe

/-- A sample one-archive directory: `a.kmz` holding one LineString with
two coordinate tokens. -/
def sampleDir : List DirEntry :=
  [DirEntry.mk "a.kmz"
    (some (KmlDoc.mk [Placemark.mk [LineStringElem.mk (some "0,0 1,1")]] none none))]

/-- A sample directory whose archive names exercise natural sorting, in
the enumeration order route2, route10, route1. -/
def demoListing : List DirEntry :=
  [DirEntry.mk "route2.kmz"
    (some (KmlDoc.mk [Placemark.mk [LineStringElem.mk (some "0,0 1,1")]] none none)),
   DirEntry.mk "route10.kmz"
    (some (KmlDoc.mk [Placemark.mk [LineStringElem.mk (some "0,0 1,1")]] none none)),
   DirEntry.mk "route1.kmz"
    (some (KmlDoc.mk [Placemark.mk [LineStringElem.mk (some "0,0 1,1")]] none none))]

/-- The decimal digit character for `n % 10`. -/
def digitChar (n : ℕ) : Char :=
  Char.ofNat (48 + n % 10)

/-- Modelled from the spec: the 8-digit zero-padded `YYYYMMDD` rendering
of a capture time (`strftime('%Y%m%d')` for the four-digit years the
ISO parser produces). -/
def yyyymmdd (t : DateTime) : String :=
  String.mk [digitChar (t.year / 1000), digitChar (t.year / 100),
    digitChar (t.year / 10), digitChar t.year,
    digitChar (t.month / 10), digitChar t.month,
    digitChar (t.day / 10), digitChar t.day]

/-- Modelled from the spec: the polygon label of the second pipeline
version's Document Writer — the bare name when the capture time is
absent, else the `YYYYMMDD` date, a space, and the name. -/
def routeLabel (r : RouteV2) : String :=
  match r.capture_time with
  | none => r.name
  | some t => yyyymmdd t ++ " " ++ r.name

end Embedding

section Proofs

attribute [local semireducible] Rat.add Rat.sub Rat.inv Rat.mul Rat.ofScientific

/-- Unfolding of the Ring Closer on a non-empty geometry, phrased through
`getLast?`. -/
lemma close_route_cons (c : Coord) (cs : List Coord) (l : Coord)
    (hl : (c :: cs).getLast? = some l) :
    close_route_if_needed (c :: cs) =
      if tol < |c.1 - l.1| ∨ tol < |c.2 - l.2| then (c :: cs) ++ [c] else c :: cs := by
  have hne : (c :: cs) ≠ [] := List.cons_ne_nil c cs
  have hlast : (c :: cs).getLast hne = l := by
    have := List.getLast?_eq_getLast (c :: cs) hne
    rw [hl] at this
    exact (Option.some.injEq _ _ ▸ this).symm
  rw [close_route_if_needed]
  rw [dif_neg hne]
  simp only [List.head_cons, hlast]

/-- The tolerance is positive. -/
lemma tol_pos : 0 < tol := by norm_num [tol]

/-- C5 -- For every geometry with first and last coordinates differing by
more than `1e-6` on either axis, closing appends one point and makes the
first and last coordinates equal (both are the original first
coordinate); a geometry already closed within tolerance is returned
unchanged; the empty geometry is returned unchanged. -/
theorem close_route_correct :
    (∀ (c : Coord) (cs : List Coord) (l : Coord), (c :: cs).getLast? = some l →
      ((tol < |c.1 - l.1| ∨ tol < |c.2 - l.2| →
        (close_route_if_needed (c :: cs)).length = (c :: cs).length + 1 ∧
        (close_route_if_needed (c :: cs)).head? = some c ∧
        (close_route_if_needed (c :: cs)).getLast? = some c) ∧
      (¬(tol < |c.1 - l.1| ∨ tol < |c.2 - l.2|) →
        close_route_if_needed (c :: cs) = c :: cs))) ∧
    close_route_if_needed ([] : List Coord) = [] := by
  refine ⟨fun c cs l hl => ⟨fun hfar => ?_, fun hnear => ?_⟩, by simp [close_route_if_needed]⟩
  · rw [close_route_cons c cs l hl, if_pos hfar]
    refine ⟨by simp, ?_, List.getLast?_concat _⟩
    rw [List.cons_append, List.head?_cons]
  · rw [close_route_cons c cs l hl, if_neg hnear]

/-- Witness for `close_route_correct` at concrete inputs: the geometry
`[(0,0),(1,0)]` is far from closed and gains a point; the geometry
`[(0,0),(0,tol/2)]` is within tolerance and is returned unchanged. -/
theorem close_route_correct_witness :
    ([((0:ℚ),(0:ℚ)), ((1:ℚ),(0:ℚ))].getLast? = some (1, 0)) ∧
    (tol < |((0:ℚ),(0:ℚ)).1 - ((1:ℚ),(0:ℚ)).1| ∨
      tol < |((0:ℚ),(0:ℚ)).2 - ((1:ℚ),(0:ℚ)).2|) ∧
    (close_route_if_needed [((0:ℚ),(0:ℚ)), (1, 0)]).length = 3 ∧
    (close_route_if_needed [((0:ℚ),(0:ℚ)), (1, 0)]).head? = some (0, 0) ∧
    (close_route_if_needed [((0:ℚ),(0:ℚ)), (1, 0)]).getLast? = some (0, 0) ∧
    ¬(tol < |((0:ℚ),(0:ℚ)).1 - ((0:ℚ), tol/2).1| ∨
      tol < |((0:ℚ),(0:ℚ)).2 - ((0:ℚ), tol/2).2|) ∧
    close_route_if_needed [((0:ℚ),(0:ℚ)), ((0:ℚ), tol/2)] = [(0, 0), (0, tol/2)] := by
  have h1 := (close_route_correct.1 (0,0) [(1,0)] (1,0) (by decide)).1 (by decide)
  have h2 := (close_route_correct.1 (0,0) [((0:ℚ), tol/2)] ((0:ℚ), tol/2) (by decide)).2
    (by decide)
  exact ⟨by decide, by decide, h1.1, h1.2.1, h1.2.2, by decide, h2⟩

/-- C9 -- Ring closing is idempotent on every geometry: when a point is
appended it is exactly the first coordinate, so the closed ring's
endpoints coincide and a second application changes nothing. -/
theorem close_route_idempotent : ∀ G : List Coord,
    close_route_if_needed (close_route_if_needed G) = close_route_if_needed G := by
  intro G
  match G with
  | [] => simp [close_route_if_needed]
  | c :: cs =>
    have hl := List.getLast?_eq_getLast (c :: cs) (List.cons_ne_nil c cs)
    set l := (c :: cs).getLast (List.cons_ne_nil c cs) with hldef
    rw [close_route_cons c cs l hl]
    by_cases hc : tol < |c.1 - l.1| ∨ tol < |c.2 - l.2|
    · rw [if_pos hc]
      have h2 : ((c :: cs) ++ [c] : List Coord) = c :: (cs ++ [c]) := by simp
      have hl2 : (c :: (cs ++ [c])).getLast? = some c := by
        rw [← h2]; exact List.getLast?_concat _
      rw [h2, close_route_cons c (cs ++ [c]) c hl2]
      have hnear : ¬(tol < |c.1 - c.1| ∨ tol < |c.2 - c.2|) := by
        simp only [sub_self, abs_zero, not_or, not_lt]
        exact ⟨tol_pos.le, tol_pos.le⟩
      rw [if_neg hnear]
    · rw [if_neg hc, close_route_cons c cs l hl, if_neg hc]

/-- C4 counterexample -- the Ring Closer does mutate the geometry held by
the Route: `close_route_if_needed` appends via `list.append` on the very
list object the route dict stores, so after the Writer processes a route
whose geometry is `[(0,0),(1,0)]` the stored geometry has changed. -/
theorem ring_closer_mutates :
    routesAfterWriter [Route.mk "r" [(0, 0), (1, 0)]] ≠ [Route.mk "r" [(0, 0), (1, 0)]] := by
  decide

/-- C4 amended -- the Ring Closer closes in place: after the Writer runs,
each route's stored geometry is the value of `close_route_if_needed` on
it, so the routes are left unchanged precisely when every stored geometry
is already a fixed point of closing (empty, or endpoints within
tolerance); a geometry needing closure is destructively extended. -/
theorem ring_closer_inplace : ∀ (rs : List Route),
    routesAfterWriter rs = rs ↔ ∀ r ∈ rs, close_route_if_needed r.coords = r.coords := by
  intro rs
  induction rs with
  | nil => simp [routesAfterWriter]
  | cons r rs ih =>
    simp only [routesAfterWriter, List.map_cons, List.mem_cons] at ih ⊢
    constructor
    · intro h
      have hh := List.cons.inj h
      have hr : close_route_if_needed r.coords = r.coords := by
        have := congrArg Route.coords hh.1
        simpa using this
      intro x hx
      rcases hx with rfl | hx
      · exact hr
      · exact (ih.mp hh.2) x hx
    · intro h
      have hr : Route.mk r.name (close_route_if_needed r.coords) = r := by
        have := h r (Or.inl rfl)
        cases r with
        | mk n c => simpa using this
      rw [hr, ih.mpr (fun x hx => h x (Or.inr hx))]

/-- C7 -- when aggregation yields zero routes, `main` takes the early
return: the Document Writer is not invoked and no output file is written;
the run outcome is the reported "No routes found in the directory.". -/
theorem main_no_routes : ∀ (listing : List DirEntry) (out : String),
    aggregate_routes_from_directory listing = [] →
    main_run listing out = RunOutcome.noRoutes := by
  intro listing out h
  simp [main_run, h]

/-- Witness for `main_no_routes`: a directory whose single entry is not a
KMZ archive aggregates to zero routes and produces the no-routes outcome. -/
theorem main_no_routes_witness :
    aggregate_routes_from_directory [DirEntry.mk "notes.txt" none] = [] ∧
    main_run [DirEntry.mk "notes.txt" none] "combined_routes.kml" = RunOutcome.noRoutes :=
  ⟨by decide, main_no_routes [DirEntry.mk "notes.txt" none] "combined_routes.kml" (by decide)⟩

/-- A geometry produced by the per-LineString parse is non-empty. -/
lemma parseLineString_ne_nil : ∀ (ct : Option String) (g : List Coord),
    parseLineString ct = some g → g ≠ [] := by
  intro ct g h
  cases ct with
  | none => simp [parseLineString] at h
  | some text =>
    simp only [parseLineString] at h
    split_ifs at h with h1 h2
    cases Option.some.inj h
    simpa [List.isEmpty_iff] using h2

/-- Every geometry returned by `parse_kmz` is non-empty. -/
lemma parse_kmz_mem_ne_nil : ∀ (x : Option KmlDoc) (g : List Coord),
    g ∈ parse_kmz x → g ≠ [] := by
  intro x g hg
  cases x with
  | none => simp [parse_kmz] at hg
  | some doc =>
    simp only [parse_kmz, parse_kmz_doc, List.mem_flatMap] at hg
    obtain ⟨pm, _, hpm⟩ := hg
    rw [List.mem_filterMap] at hpm
    obtain ⟨ls, _, hls⟩ := hpm
    exact parseLineString_ne_nil _ _ hls

/-- C8 -- every Route the Aggregator materializes has a non-empty
geometry: `parse_kmz` only keeps geometries with at least one parsed
coordinate, and routes are built only from those geometries. -/
theorem routes_nonempty : ∀ (listing : List DirEntry) (r : Route),
    r ∈ aggregate_routes_from_directory listing → r.coords ≠ [] := by
  intro listing r hr
  simp only [aggregate_routes_from_directory, List.mem_flatMap] at hr
  obtain ⟨e, _, hre⟩ := hr
  by_cases hk : isKmzName e.filename = true
  · rw [if_pos hk, List.mem_map] at hre
    obtain ⟨g, hg, rfl⟩ := hre
    simpa using parse_kmz_mem_ne_nil e.doc g hg
  · rw [if_neg hk] at hre
    simp at hre

/-- Witness for `routes_nonempty`: a one-archive directory producing the
route named "a" with two coordinates. -/
theorem routes_nonempty_witness :
    Route.mk "a" [((0:ℚ),(0:ℚ)), (1, 1)] ∈ aggregate_routes_from_directory sampleDir ∧
    (Route.mk "a" [((0:ℚ),(0:ℚ)), (1, 1)]).coords ≠ [] :=
  ⟨by decide, routes_nonempty sampleDir (Route.mk "a" [((0:ℚ),(0:ℚ)), (1, 1)]) (by decide)⟩

/-- C10 -- a coordinate token may have any number of components beyond
the second: whenever the comma-split has a first and second component
that parse as floats, the token yields exactly that (lon, lat) pair, the
remaining components being ignored. -/
theorem token_extra_components_ignored :
    ∀ (t p0 p1 : String) (rest : List String) (x y : ℚ),
      commaFields t = p0 :: p1 :: rest →
      pyFloat? p0 = some x → pyFloat? p1 = some y →
      parseCoordToken t = some (x, y) := by
  intro t p0 p1 rest x y hsplit hx hy
  simp only [parseCoordToken, hsplit]
  rw [if_pos (by simp)]
  simp [hx, hy]

/-- Witness for `token_extra_components_ignored`: a five-component token
yields the first two components' values. -/
theorem token_extra_components_ignored_witness :
    commaFields "1.5,2.5,3,4,5" = "1.5" :: "2.5" :: ["3", "4", "5"] ∧
    pyFloat? "1.5" = some (3/2) ∧ pyFloat? "2.5" = some (5/2) ∧
    parseCoordToken "1.5,2.5,3,4,5" = some (3/2, 5/2) :=
  ⟨by decide, by decide, by decide,
    token_extra_components_ignored "1.5,2.5,3,4,5" "1.5" "2.5" ["3", "4", "5"] (3/2) (5/2)
      (by decide) (by decide) (by decide)⟩

/-- C6 -- error recovery happens at the smallest scope: a token with
fewer than two comma components is dropped; a token whose first two
components do not both parse as floats is dropped; a dropped token does
not affect the other tokens of the geometry; a LineString with no valid
tuples yields no geometry; a document that failed XML parsing yields zero
geometries without raising. -/
theorem parser_error_recovery :
    (∀ t : String, (commaFields t).length < 2 → parseCoordToken t = none) ∧
    (∀ (t p0 p1 : String) (rest : List String), commaFields t = p0 :: p1 :: rest →
      pyFloat? p0 = none ∨ pyFloat? p1 = none → parseCoordToken t = none) ∧
    (∀ (pre post : List String) (t : String), parseCoordToken t = none →
      (pre ++ t :: post).filterMap parseCoordToken =
        (pre ++ post).filterMap parseCoordToken) ∧
    (∀ s : String, (pySplitWs s).filterMap parseCoordToken = [] →
      parseLineString (some s) = none) ∧
    parse_kmz none = [] := by
  refine ⟨?_, ?_, ?_, ?_, rfl⟩
  · intro t h
    simp only [parseCoordToken]
    rw [if_neg (by omega)]
  · intro t p0 p1 rest hs hor
    simp only [parseCoordToken, hs]
    rw [if_pos (by simp)]
    rcases hor with h | h
    · simp [h]
    · rcases hp : pyFloat? (List.getD (p0 :: p1 :: rest) 0 "") with _ | v <;> simp [h, hp]
  · intro pre post t h
    simp [List.filterMap_append, List.filterMap_cons, h]
  · intro s h
    simp [parseLineString, h]

/-- Witness for `parser_error_recovery`: a one-component token, a
non-numeric token, a dropped middle token, and an all-invalid LineString. -/
theorem parser_error_recovery_witness :
    (commaFields "7").length < 2 ∧ parseCoordToken "7" = none ∧
    commaFields "a,b" = "a" :: "b" :: [] ∧ pyFloat? "a" = none ∧
    parseCoordToken "a,b" = none ∧
    parseCoordToken "x" = none ∧
    (["0,0"] ++ "x" :: ["1,1"]).filterMap parseCoordToken =
      (["0,0"] ++ ["1,1"]).filterMap parseCoordToken ∧
    (pySplitWs "x y").filterMap parseCoordToken = [] ∧
    parseLineString (some "x y") = none :=
  ⟨by decide, parser_error_recovery.1 "7" (by decide),
    by decide, by decide,
    parser_error_recovery.2.1 "a,b" "a" "b" [] (by decide) (Or.inl (by decide)),
    by decide,
    parser_error_recovery.2.2.1 ["0,0"] ["1,1"] "x" (by decide),
    by decide,
    parser_error_recovery.2.2.2.1 "x y" (by decide)⟩

instance : IsTotal RouteV2 routeNatLe :=
  ⟨fun a b => le_total (natKey a.name) (natKey b.name)⟩

instance : IsTrans RouteV2 routeNatLe :=
  ⟨fun _ _ _ h h' => le_trans h h'⟩

instance : IsAntisymm RouteV2 routeNatLt :=
  ⟨fun _ _ h h' => absurd (lt_trans h h') (lt_irrefl _)⟩

/-- C1 counterexample -- the final collection order is not independent of
the directory enumeration order: the names "a1" and "a01" have equal
natural-sort keys (digit runs compare as integers, so the leading zero is
invisible), and the name-keyed sort keeps tied routes in collection
order, so the two enumeration orders of a directory holding `a1.kmz` and
`a01.kmz` produce different Route collections. -/
theorem aggregator_order_dependent :
    natKey "a1" = natKey "a01" ∧
    ([DirEntry.mk "a1.kmz"
        (some (KmlDoc.mk [Placemark.mk [LineStringElem.mk (some "0,0 1,1")]] none none)),
      DirEntry.mk "a01.kmz"
        (some (KmlDoc.mk [Placemark.mk [LineStringElem.mk (some "0,0 1,1")]] none none))] :
      List DirEntry).Perm
      [DirEntry.mk "a01.kmz"
        (some (KmlDoc.mk [Placemark.mk [LineStringElem.mk (some "0,0 1,1")]] none none)),
       DirEntry.mk "a1.kmz"
        (some (KmlDoc.mk [Placemark.mk [LineStringElem.mk (some "0,0 1,1")]] none none))] ∧
    aggregate_routes_v2
      [DirEntry.mk "a1.kmz"
        (some (KmlDoc.mk [Placemark.mk [LineStringElem.mk (some "0,0 1,1")]] none none)),
       DirEntry.mk "a01.kmz"
        (some (KmlDoc.mk [Placemark.mk [LineStringElem.mk (some "0,0 1,1")]] none none))] ≠
    aggregate_routes_v2
      [DirEntry.mk "a01.kmz"
        (some (KmlDoc.mk [Placemark.mk [LineStringElem.mk (some "0,0 1,1")]] none none)),
       DirEntry.mk "a1.kmz"
        (some (KmlDoc.mk [Placemark.mk [LineStringElem.mk (some "0,0 1,1")]] none none))] :=
  ⟨by decide, by decide, by decide⟩

/-- C1 amended -- the Aggregator's result is sorted by name under the
natural-sort comparator, and the names route2, route10, route1 come out
as route1, route2, route10; the final collection order is independent of
the directory enumeration order for listings whose collected Routes have
pairwise distinct natural-sort keys (for tied keys the sort keeps
collection order, so enumeration order shows through). -/
theorem aggregator_natural_sort :
    (∀ listing : List DirEntry, (aggregate_routes_v2 listing).Sorted routeNatLe) ∧
    (∀ l₁ l₂ : List DirEntry, l₁.Perm l₂ →
      (collect_routes_v2 l₁).Pairwise (fun a b => natKey a.name ≠ natKey b.name) →
      aggregate_routes_v2 l₁ = aggregate_routes_v2 l₂) ∧
    (aggregate_routes_v2 demoListing).map RouteV2.name = ["route1", "route2", "route10"] := by
  refine ⟨fun listing => List.sorted_insertionSort routeNatLe _, ?_, by decide⟩
  intro l₁ l₂ hperm hpair
  have hsym : ∀ {a b : RouteV2}, natKey a.name ≠ natKey b.name →
      natKey b.name ≠ natKey a.name := fun h e => h e.symm
  have hc : (collect_routes_v2 l₁).Perm (collect_routes_v2 l₂) :=
    List.Perm.flatMap_right _ hperm
  have hpair₂ : (collect_routes_v2 l₂).Pairwise
      (fun a b => natKey a.name ≠ natKey b.name) :=
    (List.Perm.pairwise_iff hsym hc).mp hpair
  have hs₁ : (aggregate_routes_v2 l₁).Sorted routeNatLe :=
    List.sorted_insertionSort routeNatLe _
  have hs₂ : (aggregate_routes_v2 l₂).Sorted routeNatLe :=
    List.sorted_insertionSort routeNatLe _
  have hps : (aggregate_routes_v2 l₁).Perm (aggregate_routes_v2 l₂) :=
    (List.perm_insertionSort routeNatLe _).trans
      (hc.trans (List.perm_insertionSort routeNatLe _).symm)
  have hp₁ : (aggregate_routes_v2 l₁).Pairwise
      (fun a b => natKey a.name ≠ natKey b.name) :=
    (List.Perm.pairwise_iff hsym (List.perm_insertionSort routeNatLe _)).mpr hpair
  have hp₂ : (aggregate_routes_v2 l₂).Pairwise
      (fun a b => natKey a.name ≠ natKey b.name) :=
    (List.Perm.pairwise_iff hsym (List.perm_insertionSort routeNatLe _)).mpr hpair₂
  have hlt₁ : (aggregate_routes_v2 l₁).Sorted routeNatLt :=
    (hs₁.and hp₁).imp (fun h => lt_of_le_of_ne h.1 h.2)
  have hlt₂ : (aggregate_routes_v2 l₂).Sorted routeNatLt :=
    (hs₂.and hp₂).imp (fun h => lt_of_le_of_ne h.1 h.2)
  exact List.eq_of_perm_of_sorted hps hlt₁ hlt₂

/-- Witness for `aggregator_natural_sort`: the demo listing against its
reversed enumeration. -/
theorem aggregator_natural_sort_witness :
    demoListing.Perm demoListing.reverse ∧
    (collect_routes_v2 demoListing).Pairwise
      (fun a b => natKey a.name ≠ natKey b.name) ∧
    aggregate_routes_v2 demoListing = aggregate_routes_v2 demoListing.reverse :=
  ⟨by decide, by decide,
    aggregator_natural_sort.2.1 demoListing demoListing.reverse (by decide) (by decide)⟩

/-- C2 -- the capture timestamp comes from the instantaneous-time value
when present, else from the interval begin value; the chosen value is
ISO-8601-parsed with a trailing Z read as offset +00:00; a failed parse
only makes the capture time absent and never drops the geometries. -/
theorem capture_time_extraction :
    (∀ (doc : KmlDoc) (w : String), doc.whenText = some w →
      (parse_kmz_v2 (some doc)).1 = parseIsoZ w) ∧
    (∀ (doc : KmlDoc) (b : String), doc.whenText = none → doc.beginText = some b →
      (parse_kmz_v2 (some doc)).1 = parseIsoZ b) ∧
    parseIsoZ "2023-05-01T10:00:00Z" = parseIso "2023-05-01T10:00:00+00:00" ∧
    parseIsoZ "2023-05-01T10:00:00Z" = some (DateTime.mk 2023 5 1 10 0 0 (some 0)) ∧
    (∀ doc : KmlDoc, (parse_kmz_v2 (some doc)).2 = parse_kmz_doc doc) := by
  refine ⟨?_, ?_, by decide, by decide, fun doc => rfl⟩
  · intro doc w hw
    simp [parse_kmz_v2, extract_capture_time, hw]
  · intro doc b hw hb
    simp [parse_kmz_v2, extract_capture_time, hw, hb]

/-- Witness for `capture_time_extraction`: a document carrying the example
instantaneous time, and one carrying only an unparsable begin value. -/
theorem capture_time_extraction_witness :
    (KmlDoc.mk [] (some "2023-05-01T10:00:00Z") none).whenText =
      some "2023-05-01T10:00:00Z" ∧
    (parse_kmz_v2 (some (KmlDoc.mk [] (some "2023-05-01T10:00:00Z") none))).1 =
      parseIsoZ "2023-05-01T10:00:00Z" ∧
    (parse_kmz_v2 (some (KmlDoc.mk [] none (some "yesterday")))).1 =
      parseIsoZ "yesterday" ∧
    parseIsoZ "yesterday" = none :=
  ⟨rfl,
    capture_time_extraction.1 (KmlDoc.mk [] (some "2023-05-01T10:00:00Z") none)
      "2023-05-01T10:00:00Z" rfl,
    capture_time_extraction.2.1 (KmlDoc.mk [] none (some "yesterday")) "yesterday" rfl rfl,
    by decide⟩

/-- Every character produced by `digitChar` is a decimal digit. -/
lemma digitChar_isDigit (n : ℕ) : (digitChar n).isDigit = true := by
  have h : n % 10 < 10 := Nat.mod_lt n (by norm_num)
  unfold digitChar
  set k := n % 10 with hk
  clear_value k
  interval_cases k <;> decide

/-- C3 -- the Writer's polygon label is the bare name when the capture
time is absent, and otherwise the `YYYYMMDD` rendering of the capture
time, a space, and the name, where the date rendering is always exactly
eight digit characters. -/
theorem writer_label_correct :
    (∀ r : RouteV2, r.capture_time = none → routeLabel r = r.name) ∧
    (∀ (r : RouteV2) (t : DateTime), r.capture_time = some t →
      routeLabel r = yyyymmdd t ++ " " ++ r.name) ∧
    (∀ t : DateTime, (yyyymmdd t).length = 8 ∧
      ∀ c ∈ (yyyymmdd t).toList, c.isDigit) := by
  refine ⟨?_, ?_, fun t => ⟨rfl, ?_⟩⟩
  · intro r h
    simp [routeLabel, h]
  · intro r t h
    simp [routeLabel, h]
  · intro c hc
    have hc' : c ∈ [digitChar (t.year / 1000), digitChar (t.year / 100),
        digitChar (t.year / 10), digitChar t.year,
        digitChar (t.month / 10), digitChar t.month,
        digitChar (t.day / 10), digitChar t.day] := hc
    simp only [List.mem_cons, List.not_mem_nil, or_false] at hc'
    rcases hc' with rfl | rfl | rfl | rfl | rfl | rfl | rfl | rfl <;>
      exact digitChar_isDigit _

/-- Witness for `writer_label_correct`: a dated route labelled
"20230102 route2" and an undated route labelled by its bare name. -/
theorem writer_label_correct_witness :
    (RouteV2.mk "route1" none []).capture_time = none ∧
    routeLabel (RouteV2.mk "route1" none []) = "route1" ∧
    routeLabel (RouteV2.mk "route2" (some (DateTime.mk 2023 1 2 0 0 0 (some 0))) []) =
      "20230102 route2" := by
  refine ⟨rfl, writer_label_correct.1 (RouteV2.mk "route1" none []) rfl, ?_⟩
  have h := writer_label_correct.2.1
    (RouteV2.mk "route2" (some (DateTime.mk 2023 1 2 0 0 0 (some 0))) [])
    (DateTime.mk 2023 1 2 0 0 0 (some 0)) rfl
  rw [h]
  decide

end Proofs
